import Mathlib

/-!
Verification of the workflow-automator repository's execution engines.

The development shallowly embeds, faithfully to the Python source:

* `src/composable_engine.py` — the generator-based stack engine
  (`composable_engine`): state routines are modelled as resumable
  coroutines (`RProc`), the engine stack as a list of `Frame`s, and the
  engine generator's interaction with its host as a fuel-indexed
  interpreter `run` that consumes a list of host resume values and
  produces the stream of values the engine yields to the host.
* `src/engine.py` — the graph-driven `Engine` class: the
  `_process_instruction` dispatcher and `send_instruction` queueing.
* `src/dot_parser.py` — `DotParser.parse` with its comment stripping,
  unbalanced-quote guard and statement loop.

Python `dict` instruction records are modelled by `InstrDict` (the fields
the engines read), Python `None` by `Option`, and machine state maps by
association lists in declaration order.
-/

namespace WorkflowAutomator

/-- The single-quote character as a string (used inside engine messages). -/
def sq : String := String.singleton (Char.ofNat 39)

/-- A Python dict carrying an `"instruction"` key, restricted to the
fields that the engines inspect.  Payloads are kept opaque as strings. -/
structure InstrDict where
  instruction : String
  next_state : Option String := none
  next_state_for_parent : Option String := none
  query : Option String := none
  message : Option String := none
  level : Option String := none
  payload : Option String := none
deriving DecidableEq

/-- A value yielded by a state routine: either a dict with an
`"instruction"` key, or anything else (modelled by its rendering),
which `composable_engine` reports via a `runner_warning`. -/
inductive YVal where
  | instr (i : InstrDict)
  | other (raw : String)
deriving DecidableEq

/-- A state routine's remaining computation: it can return
(`StopIteration`), raise an exception carrying a message, or yield a
value and wait to be resumed with a value (`gen.send`; `next gen` is
`gen.send None`, modelled as resuming with `none`). -/
inductive RProc where
  | done
  | fail (msg : String)
  | yld (v : YVal) (k : Option String → RProc)

/-- `{"instruction": "runner_input", "input_data": v}` — the value
`composable_engine` stores into `input_value` after a `request_input`. -/
inductive InputD where
  | runnerInput (input_data : Option String)
deriving DecidableEq

/-- `{"instruction_context": input_value}` — the `input_data` argument a
state function is instantiated with. -/
structure RoutineInput where
  instruction_context : Option InputD

/-- A state definition: a state function (callable) or a nested
sub-machine definition (dict), as `composable_engine` distinguishes
them. -/
inductive StateDef where
  | func (f : RoutineInput → RProc)
  | sub (m : List (String × StateDef))

/-- Association-list lookup, modelling Python dict indexing on the
state-definition mapping (declaration order, unique keys). -/
def alookup {β : Type} (l : List (String × β)) (k : String) : Option β :=
  match l with
  | [] => none
  | (a, v) :: rest => if a = k then some v else alookup rest k

/-- One entry of `engine_stack`:
`{"state_def": …, "current_state_name": …, "state_generator": …}`. -/
structure Frame where
  state_def : List (String × StateDef)
  current_state_name : Option String
  state_generator : Option (Option String → RProc)

/-- The engine's mutable state: the machine stack (top of stack first,
reversing the Python list order) and `input_value`. -/
structure EState where
  stack : List Frame
  input_value : Option InputD

/-- The terminal notify yielded once the stack empties
(`composable_engine` line 121). -/
def endNotify : InstrDict :=
  { instruction := "runner_notify"
    message := some ("State machine reached " ++ sq ++ "__end__" ++ sq ++ " state.")
    level := some "info" }

/-- `f"Error in state '{current_state_name}': {e}"`. -/
def errorMessageFor (cur e : String) : String :=
  "Error in state " ++ sq ++ cur ++ sq ++ ": " ++ e

/-- The `runner_error` dict yielded when a state function raises. -/
def runnerErrorDict (cur e : String) : InstrDict :=
  { instruction := "runner_error"
    message := some (errorMessageFor cur e)
    payload := some e }

/-- The `runner_warning` dict yielded on an unexpected (non-instruction)
yield value. -/
def runnerWarningDict (raw : String) : InstrDict :=
  { instruction := "runner_warning"
    message := some ("State function yielded unexpected value: " ++ raw)
    payload := some raw }

/-- Result of one pass of `composable_engine`'s `while engine_stack`
loop.  `outs` are the values the engine generator yields to the host
during the pass (a `none` entry is the bare `yield` of the
`request_input` branch, which emits Python `None`); `raws` records the
values obtained from `next(state_generator)` during the pass (the
routine-yield trace); `suspended` means the engine is parked at a yield
and the host supplied no further resume value; `crash` models an
exception escaping the engine generator itself (`KeyError` on a state
name that is not in the current machine's definitions). -/
inductive StepRes where
  | ok (outs : List (Option InstrDict)) (raws : List YVal) (s : EState)
      (rs : List (Option String))
  | suspended (outs : List (Option InstrDict)) (raws : List YVal)
  | crash (msg : String)

/-- Advance the current state generator once (`next(state_generator)`,
i.e. resume with `None`) and dispatch on what it produced, exactly
following `composable_engine` lines 54–118.  The per-iteration trackers
(`next_state_name`, `parent_transition_info`, `last_instruction_from_state`,
`instruction_result`) are re-initialised to `None` by lines 48–51 on
every pass, so on `StopIteration` they are all `None` and the machine
halts at this state (lines 94–110). -/
def advance (iv : Option InputD) (ctx : Frame) (rest : List Frame)
    (g : Option String → RProc) (rs : List (Option String)) : StepRes :=
  match g none with
  | .done =>
      -- StopIteration: no tracked transition survives to this pass, so
      -- current_state_name := None, generator reset, input_value reset.
      .ok [] [] ⟨{ ctx with current_state_name := none, state_generator := none } :: rest, none⟩ rs
  | .fail e =>
      -- yield runner_error, then pop the errored machine.
      let cur := ctx.current_state_name.getD ""
      match rs with
      | [] => .suspended [some (runnerErrorDict cur e)] []
      | _ :: rs' => .ok [some (runnerErrorDict cur e)] [] ⟨rest, iv⟩ rs'
  | .yld v k =>
      match v with
      | .instr i =>
          if i.instruction = "transition" then
            -- records next_state_name / instruction_result in locals only;
            -- no engine state changes, the generator has merely advanced.
            .ok [] [.instr i] ⟨{ ctx with state_generator := some k } :: rest, iv⟩ rs
          else if i.instruction = "parent_transition" then
            -- pop this machine; if a parent remains, set its current state.
            match rest with
            | [] => .ok [] [.instr i] ⟨[], iv⟩ rs
            | p :: rest' =>
                .ok [] [.instr i]
                  ⟨{ p with current_state_name := i.next_state_for_parent } :: rest', iv⟩ rs
          else if i.instruction = "request_input" then
            -- yield the instruction, then a bare yield for the reply; the
            -- reply is wrapped into input_value for the next instantiation.
            match rs with
            | [] => .suspended [some i] [.instr i]
            | _ :: [] => .suspended [some i, none] [.instr i]
            | _ :: r2 :: rs' =>
                .ok [some i, none] [.instr i]
                  ⟨{ ctx with state_generator := some k } :: rest, some (.runnerInput r2)⟩ rs'
          else
            -- notify / debug / error / warning / custom …: pass to the host.
            match rs with
            | [] => .suspended [some i] [.instr i]
            | _ :: rs' =>
                .ok [some i] [.instr i] ⟨{ ctx with state_generator := some k } :: rest, iv⟩ rs'
      | .other raw =>
          match rs with
          | [] => .suspended [some (runnerWarningDict raw)] [.other raw]
          | _ :: rs' =>
              .ok [some (runnerWarningDict raw)] [.other raw]
                ⟨{ ctx with state_generator := some k } :: rest, iv⟩ rs'

/-- One pass of the `while engine_stack` loop of `composable_engine`
(lines 13–118): inspect the top frame, pop on `None`/`"__end__"`, look
the current state up in the machine's definitions, push a sub-machine
or instantiate the state function, then advance the generator. -/
def step (s : EState) (rs : List (Option String)) : StepRes :=
  match s.stack with
  | [] => .ok [] [] s rs   -- never reached: `run` tests emptiness first
  | ctx :: rest =>
    match ctx.current_state_name with
    | none => .ok [] [] ⟨rest, s.input_value⟩ rs
    | some cur =>
      if cur = "__end__" then .ok [] [] ⟨rest, s.input_value⟩ rs
      else
        match alookup ctx.state_def cur with
        | none => .crash ("KeyError: " ++ sq ++ cur ++ sq)
        | some sdef =>
          match ctx.state_generator with
          | none =>
            match sdef with
            | .sub subdef =>
                .ok [] []
                  ⟨⟨subdef, some "__start__", none⟩ :: ctx :: rest, s.input_value⟩ rs
            | .func f =>
                -- instantiate with {"instruction_context": input_value} and
                -- fall through to next(state_generator) in the same pass.
                advance s.input_value ctx rest (fun _ => f ⟨s.input_value⟩) rs
          | some g => advance s.input_value ctx rest g rs

/-- How a run of the engine generator finished. -/
inductive RunEnd where
  | terminated
  | fuelOut
  | suspended
  | crashed (msg : String)
deriving DecidableEq

/-- The observation of a run: the values yielded to the host, the trace
of values the routines yielded to the engine, and how the run ended. -/
structure RunResult where
  outs : List (Option InstrDict)
  raws : List YVal
  fin : RunEnd
deriving DecidableEq

/-- Fuel-indexed interpretation of `composable_engine`'s loop: when the
stack is empty the terminal notify is yielded and the generator
returns; otherwise one loop pass runs and the results accumulate. -/
def run (fuel : Nat) (s : EState) (rs : List (Option String)) : RunResult :=
  if s.stack.isEmpty then ⟨[some endNotify], [], .terminated⟩
  else
    match fuel with
    | 0 => ⟨[], [], .fuelOut⟩
    | n + 1 =>
      match step s rs with
      | .ok outs raws s' rs' =>
          let r := run n s' rs'
          ⟨outs ++ r.outs, raws ++ r.raws, r.fin⟩
      | .suspended outs raws => ⟨outs, raws, .suspended⟩
      | .crash m => ⟨[], [], .crashed m⟩

/-- Iterate `step` while it keeps producing successor states, exposing
the engine state reached after `n` loop passes. -/
def stepN : Nat → EState → List (Option String) → Option (EState × List (Option String))
  | 0, s, rs => some (s, rs)
  | n + 1, s, rs =>
    if s.stack.isEmpty then none
    else
      match step s rs with
      | .ok _ _ s' rs' => stepN n s' rs'
      | _ => none

/-- `composable_engine(state_definitions, initial_state)`: the guard of
lines 2–5 raises before any instruction is yielded when `"__start__"`
or `"__end__"` is missing; otherwise the engine runs from a single
frame on the stack. -/
def composable_engine (state_definitions : List (String × StateDef))
    (initial_state : String) (fuel : Nat) (rs : List (Option String)) :
    Except String RunResult :=
  if (alookup state_definitions "__start__").isNone then
    .error ("State machine must have a " ++ sq ++ "__start__" ++ sq ++ " state.")
  else if (alookup state_definitions "__end__").isNone then
    .error ("State machine must have an " ++ sq ++ "__end__" ++ sq ++ " state.")
  else
    .ok (run fuel ⟨[⟨state_definitions, some initial_state, none⟩], none⟩ rs)

/-! ### Concrete machines used to settle individual claims -/

/-- A routine that returns at once without yielding. -/
def endRoutine : RoutineInput → RProc := fun _ => .done

/-- Render the resume value a routine receives back from a `yield`. -/
def describeReply : Option String → String
  | none => "None"
  | some s => s

/-- A `request_input` instruction asking for a name. -/
def askNameInstr : InstrDict := { instruction := "request_input", query := some "name?" }

/-- The notify a routine emits to report the resume value it received
for its `request_input` (mirrors `name = yield` followed by a greeting
notify in `composable_state_functions.state_start`). -/
def gotNotify (r : Option String) : InstrDict :=
  { instruction := "notify", message := some ("got " ++ describeReply r) }

/-- A routine that yields `request_input`, then reports the value its
next resume delivered, then returns. -/
def askNameRoutine : RoutineInput → RProc := fun _ =>
  .yld (.instr askNameInstr) fun r => .yld (.instr (gotNotify r)) fun _ => .done

/-- Machine for claim C2: `__start__` requests input and echoes the
resume value it receives. -/
def c2Defs : List (String × StateDef) :=
  [("__start__", .func askNameRoutine), ("__end__", .func endRoutine)]

/-- Initial engine state for a machine definition. -/
def initState (defs : List (String × StateDef)) : EState :=
  ⟨[⟨defs, some "__start__", none⟩], none⟩

/-- A transition instruction to state `"a"` carrying payload `"P"`. -/
def transToA : InstrDict :=
  { instruction := "transition", next_state := some "a", payload := some "P" }

/-- A routine that yields a transition to `"a"` (payload `"P"`) and returns. -/
def transThenReturn : RoutineInput → RProc := fun _ =>
  .yld (.instr transToA) fun _ => .done

/-- The notify state `"a"` would emit if it were ever entered. -/
def inANotify : InstrDict := { instruction := "notify", message := some "in a" }

/-- Routine of state `"a"`: one notify, then return. -/
def notifyInA : RoutineInput → RProc := fun _ =>
  .yld (.instr inANotify) fun _ => .done

/-- Machine for claim C3: `__start__` transitions to `"a"`. -/
def c3Defs : List (String × StateDef) :=
  [("__start__", .func transThenReturn), ("a", .func notifyInA),
   ("__end__", .func endRoutine)]

/-- A routine that raises `"boom"` as soon as it is advanced. -/
def raisesBoom : RoutineInput → RProc := fun _ => .fail "boom"

/-- Machine for claim C5's counterexample: `__start__` raises. -/
def c5Defs : List (String × StateDef) :=
  [("__start__", .func raisesBoom), ("__end__", .func endRoutine)]

/-! ### Host-stream observation (claim C1)

`composable_engine` forwards routine-yield dicts unchanged; its own
records are tagged `runner_notify` / `runner_warning` / `runner_error`.
The six host-directed routine tags of the spec are singled out here. -/

/-- The six routine-yield tags that are host-directed. -/
def isHostTag (t : String) : Bool :=
  t = "notify" || t = "warning" || t = "error" || t = "debug" ||
  t = "custom" || t = "request_input"

/-- Project a host-delivered value onto the six host-directed tags. -/
def obsOut (o : Option InstrDict) : Option InstrDict :=
  match o with
  | some i => if isHostTag i.instruction then some i else none
  | none => none

/-- Project a routine yield onto the six host-directed tags. -/
def obsRaw (y : YVal) : Option InstrDict :=
  match y with
  | .instr i => if isHostTag i.instruction then some i else none
  | .other _ => none

/-- Whether a host-delivered value is tagged `transition` or
`parent_transition`. -/
def isEngineInternalTag (o : Option InstrDict) : Bool :=
  match o with
  | some i => i.instruction = "transition" || i.instruction = "parent_transition"
  | none => false

/-! ### Routines for the boundary-equivalence claim C6 -/

/-- A routine that returns without yielding anything. -/
def returnsImmediately : RoutineInput → RProc := fun _ => .done

/-- `{"instruction": "transition", "next_state": "__end__"}`. -/
def endTransitionInstr : InstrDict :=
  { instruction := "transition", next_state := some "__end__" }

/-- A routine that yields a single transition to `"__end__"` and returns. -/
def yieldsEndTransition : RoutineInput → RProc := fun _ =>
  .yld (.instr endTransitionInstr) fun _ => .done

end WorkflowAutomator

namespace WorkflowAutomator

/-! ## `src/engine.py` — the graph-driven `Engine` class

Only the state touched by `_process_instruction` and
`send_instruction` is modelled: the state list, the transition table
(source ↦ ordered `(destination, condition)` list), the current state,
whether a state generator is installed, the instruction queue and its
size bound. -/

/-- The fields of the `Engine` class read or written by
`_process_instruction` and `send_instruction`. -/
structure Eng where
  states : List String
  transitions : List (String × List (String × String))
  current_state : String
  state_gen_present : Bool
  instruction_queue : List (String × Option String)
  max_queue_size : Nat
deriving DecidableEq

/-- A value a state generator can hand back: a two-element tuple
`(tag, value)` or any other value (modelled by its rendering). -/
inductive PyResp where
  | tup (fst snd : String)
  | otherVal (v : String)
deriving DecidableEq

/-- What `state_gen.send((instruction, context))` produced: a response
value, `StopIteration`, or an exception. -/
inductive GenResult where
  | yields (r : PyResp)
  | stops
  | raises (msg : String)
deriving DecidableEq

/-- The value `_process_instruction` returns: a `(tag, value)` pair it
built, or the state generator's response passed through unchanged. -/
inductive PIRes where
  | pair (fst snd : String)
  | passthrough (r : PyResp)
deriving DecidableEq

/-- `Engine._process_instruction` (lines 154–204), as a function of the
engine fields and of what the generator did when sent the
instruction. -/
def processInstruction (e : Eng) (g : GenResult) : PIRes × Eng :=
  match g with
  | .yields (.tup a b) =>
      if a = "state_change" then
        if e.states.contains b then
          (.pair "state_change" b,
           { e with current_state := b, state_gen_present := false })
        else
          (.pair "error" ("Invalid state: " ++ b), e)
      else
        (.passthrough (.tup a b), e)
  | .yields (.otherVal v) =>
      (.passthrough (.otherVal v), e)
  | .stops =>
      -- StopIteration: clear the generator, then auto-transition when the
      -- current state has exactly one outgoing transition with no condition.
      let e1 := { e with state_gen_present := false }
      match alookup e.transitions e.current_state with
      | some destinations =>
          match destinations with
          | [(next_state, condition)] =>
              if condition = "" then
                (.pair "state_change" next_state,
                 { e1 with current_state := next_state })
              else
                (.pair "state_complete" e.current_state, e1)
          | _ => (.pair "state_complete" e.current_state, e1)
      | none => (.pair "state_complete" e.current_state, e1)
  | .raises m =>
      (.pair "error" m, { e with state_gen_present := false })

/-- `Engine.send_instruction` (lines 300–320): reject when the queue
already holds `max_queue_size` entries, else append. -/
def sendInstruction (e : Eng) (ins : String) (ctx : Option String) : Eng × Bool :=
  if e.instruction_queue.length ≥ e.max_queue_size then
    (e, false)
  else
    ({ e with instruction_queue := e.instruction_queue ++ [(ins, ctx)] }, true)

end WorkflowAutomator

namespace WorkflowAutomator

/-! ## `src/dot_parser.py` — `DotParser`

A direct port of the regex-driven statement scanner.  The regex subs of
`parse` (comment stripping) and the anchored statement patterns are
implemented character-by-character with the same matching behaviour:
the lazy `.*?\s*(?:\}|\])` group stops at the first `}` or `]`, `\w`
is `[A-Za-z0-9_]`, quoted identifiers are `"([^"]+)"`. -/

/-- An attribute value: a (quote-stripped) string, or Python `True` for
a bare attribute word. -/
inductive AttrVal where
  | s (v : String)
  | flag
deriving DecidableEq

/-- A node record: `{'name': …, 'label': …, 'attributes': …}` (the
default-node-block case has no name, and a label only when given). -/
structure DNode where
  name : Option String := none
  label : Option AttrVal := none
  attributes : List (String × AttrVal) := []
deriving DecidableEq

/-- An edge record: `{'source': …, 'destination': …, 'connector': …,
'attributes': …}`. -/
structure DEdge where
  source : String
  destination : String
  connector : String
  attributes : List (String × AttrVal) := []
deriving DecidableEq

/-- The parser object's mutable state (`DotParser.__init__`). -/
structure DotParser where
  nodes : List DNode := []
  edges : List DEdge := []
  default_edge_attributes : List (String × AttrVal) := []
  default_node_attributes : Option (List (String × AttrVal)) := none
deriving DecidableEq

/-- A freshly constructed `DotParser()`. -/
def freshDotParser : DotParser := {}

/-- Skip to just after the first `*/`, if any. -/
def findBlockClose : List Char → Option (List Char)
  | [] => none
  | '*' :: '/' :: rest => some rest
  | _ :: rest => findBlockClose rest

/-- `re.sub(r'/\*.*?\*/', '', s, flags=re.DOTALL)`: each `/*` opening a
closed block comment is removed through its first `*/`; an unclosed
`/*` stays.  Fuelled by the input length (each pass consumes at least
one character). -/
def stripBlockAux : Nat → List Char → List Char
  | 0, cs => cs
  | fuel + 1, cs =>
    match cs with
    | [] => []
    | '/' :: '*' :: rest =>
        (match findBlockClose rest with
         | some rest' => stripBlockAux fuel rest'
         | none => '/' :: stripBlockAux fuel ('*' :: rest))
    | c :: rest => c :: stripBlockAux fuel rest

/-- `re.sub(r'//.*', '', s)`: drop from each `//` to the end of its
line (the newline itself survives). -/
def stripLineAux : Bool → List Char → List Char
  | _, [] => []
  | true, c :: rest =>
      if c = '\n' then c :: stripLineAux false rest else stripLineAux true rest
  | false, cs =>
    match cs with
    | '/' :: '/' :: rest => stripLineAux true rest
    | c :: rest => c :: stripLineAux false rest
    | [] => []

/-- Python `str.strip()`: drop whitespace from both ends. -/
def pyStrip (cs : List Char) : List Char :=
  ((cs.dropWhile (fun c => c.isWhitespace)).reverse.dropWhile
    (fun c => c.isWhitespace)).reverse

/-- The comment-stripped, whitespace-trimmed input of `DotParser.parse`
(lines 13–16). -/
def cleanedDot (s : String) : String :=
  String.mk (pyStrip (stripLineAux false (stripBlockAux (s.length + 1) s.toList)))

/-- Python `\w`. -/
def isWordChar (c : Char) : Bool := c.isAlphanum || c = '_'

/-- Leading whitespace: its length and what follows (`\s*`). -/
def spanWs (cs : List Char) : Nat × List Char :=
  let w := cs.takeWhile (fun c => c.isWhitespace)
  (w.length, cs.drop w.length)

/-- Match a literal character sequence at the front. -/
def matchLit : List Char → List Char → Option (List Char)
  | [], cs => some cs
  | l :: ls, c :: cs => if c = l then matchLit ls cs else none
  | _ :: _, [] => none

/-- `^kw\b`: the keyword followed by a non-word character or the end. -/
def startsKeyword (kw : String) (cs : List Char) : Option (List Char) :=
  match matchLit kw.toList cs with
  | some rest =>
      match rest with
      | [] => some []
      | c :: _ => if isWordChar c then none else some rest
  | none => none

/-- `("([^"]+)"|[\w]+)`: a quoted (nonempty) or bare identifier.
Returns the raw matched text (quotes included), its length, and the
remaining input. -/
def pName (cs : List Char) : Option (String × Nat × List Char) :=
  match cs with
  | '"' :: rest =>
      let inner := rest.takeWhile (fun c => c ≠ '"')
      if inner.isEmpty then none
      else
        match rest.drop inner.length with
        | '"' :: rest' =>
            some (String.mk ('"' :: (inner ++ ['"'])), inner.length + 2, rest')
        | _ => none
  | _ =>
      let w := cs.takeWhile isWordChar
      if w.isEmpty then none else some (String.mk w, w.length, cs.drop w.length)

/-- `[-<>]+`: an edge connector. -/
def pConnector (cs : List Char) : Option (String × Nat × List Char) :=
  let w := cs.takeWhile (fun c => c = '-' || c = '<' || c = '>')
  if w.isEmpty then none else some (String.mk w, w.length, cs.drop w.length)

/-- `(?:\{|\[)`: an opening brace or bracket. -/
def pOpen (cs : List Char) : Option (List Char) :=
  match cs with
  | '{' :: rest => some rest
  | '[' :: rest => some rest
  | _ => none

/-- `\s*(?P<attrs>.*?)\s*(?:\}|\])` after the opener: the attrs text is
everything up to the first `}` or `]`, with surrounding whitespace
absorbed by the `\s*`s.  Returns the attrs text, the number of
characters consumed (closer included) and the rest. -/
def pAttrsBody (cs : List Char) : Option (String × Nat × List Char) :=
  let before := cs.takeWhile (fun c => c ≠ '}' && c ≠ ']')
  match cs.drop before.length with
  | _ :: rest' => some ((String.mk before).trim, before.length + 1, rest')
  | [] => none

/-- `\s*;?`: consumed length and rest. -/
def pSemiOpt (cs : List Char) : Nat × List Char :=
  let (n, cs1) := spanWs cs
  match cs1 with
  | ';' :: rest => (n + 1, rest)
  | _ => (n, cs1)

/-- `str.strip('"')` on an attribute value. -/
def pyStripQuotes (s : String) : String :=
  let l := s.toList.dropWhile (fun c => c = '"')
  String.mk ((l.reverse.dropWhile (fun c => c = '"')).reverse)

/-- `re.split(r'[;,]\s*', s)`: split at each `;` or `,`, absorbing the
whitespace that follows the separator. -/
def splitAttrPieces : Nat → List Char → List (List Char)
  | 0, cs => [cs]
  | _, [] => [[]]
  | fuel + 1, cs =>
      let piece := cs.takeWhile (fun c => c ≠ ';' && c ≠ ',')
      match cs.drop piece.length with
      | [] => [piece]
      | _ :: rest =>
          let rest' := rest.dropWhile (fun c => c.isWhitespace)
          piece :: splitAttrPieces fuel rest'

/-- Insert or overwrite a key, keeping Python-dict insertion order. -/
def upsert (l : List (String × AttrVal)) (k : String) (v : AttrVal) :
    List (String × AttrVal) :=
  if (alookup l k).isSome then
    l.map (fun p => if p.1 = k then (k, v) else p)
  else l ++ [(k, v)]

/-- `DotParser._parse_attributes`. -/
def parseAttributes (s : String) : List (String × AttrVal) :=
  if s.isEmpty then []
  else
    (splitAttrPieces (s.length + 1) s.toList).foldl
      (fun acc piece =>
        let attr := (String.mk piece).trim
        if attr.isEmpty then acc
        else if attr.toList.contains '=' then
          let key := String.mk (attr.toList.takeWhile (fun c => c ≠ '='))
          let value := String.mk ((attr.toList.dropWhile (fun c => c ≠ '=')).drop 1)
          upsert acc key.trim (.s (pyStripQuotes value.trim))
        else upsert acc attr .flag)
      []

/-- `DotParser._is_valid_identifier`: `^[A-Za-z_][A-Za-z0-9_]*$`. -/
def isValidIdentifier (s : String) : Bool :=
  match s.toList with
  | [] => false
  | c :: rest => (c.isAlpha || c = '_') && rest.all (fun d => d.isAlphanum || d = '_')

/-- Strip one pair of surrounding double quotes, as the parse functions
do on a captured name. -/
def stripNameQuotes (s : String) : String :=
  if s.startsWith "\"" && s.endsWith "\"" then (s.drop 1).dropRight 1 else s

/-- `attributes.get('label', node_name)`. -/
def labelOf (attrs : List (String × AttrVal)) (dflt : String) : AttrVal :=
  (alookup attrs "label").getD (.s dflt)

/-- Whether a node with this name was already added. -/
def nodeExists (p : DotParser) (name : String) : Bool :=
  p.nodes.any (fun n => n.name = some name)

/-- `DotParser._ensure_node_exists`: only sources are auto-added, and
nothing is added once a default node block exists. -/
def ensureNodeExists (p : DotParser) (name : String) (is_source : Bool) : DotParser :=
  if p.default_node_attributes.isSome then p
  else if is_source && ¬ nodeExists p name then
    { p with nodes := p.nodes ++ [{ name := some name, label := some (.s name) }] }
  else p

/-- `DotParser._parse_node_definition` (both patterns); returns the
updated parser and `m.end()` on success. -/
def parseNodeDefinition (p : DotParser) (cs : List Char) : Option (DotParser × Nat) :=
  (do
    -- pattern_with_name: ^node\s+name\s*[{\[] attrs [}\]]\s*;?
    let rest0 ← matchLit "node".toList cs
    let (w1, rest1) := spanWs rest0
    if w1 = 0 then none
    else do
      let (rawName, nlen, rest2) ← pName rest1
      let (w2, rest3) := spanWs rest2
      let rest4 ← pOpen rest3
      let (attrsStr, alen, rest5) ← pAttrsBody rest4
      let (slen, _) := pSemiOpt rest5
      let consumed := 4 + w1 + nlen + w2 + 1 + alen + slen
      let nodeName := stripNameQuotes rawName
      if ¬ isValidIdentifier nodeName then some (p, consumed)
      else
        let attributes := parseAttributes attrsStr
        if p.default_node_attributes.isSome then some (p, consumed)
        else
          let node : DNode :=
            { name := some nodeName, label := some (labelOf attributes nodeName),
              attributes := attributes }
          if nodeExists p nodeName then some (p, consumed)
          else some ({ p with nodes := p.nodes ++ [node] }, consumed)) <|>
  (do
    -- pattern_no_name: ^node\s*[{\[] attrs [}\]]\s*;?
    let rest0 ← matchLit "node".toList cs
    let (w1, rest1) := spanWs rest0
    let rest2 ← pOpen rest1
    let (attrsStr, alen, rest3) ← pAttrsBody rest2
    let (slen, _) := pSemiOpt rest3
    let consumed := 4 + w1 + 1 + alen + slen
    let attributes := parseAttributes attrsStr
    let p1 := { p with default_node_attributes := some attributes }
    if p1.nodes.isEmpty then
      let node : DNode :=
        { name := none, label := alookup attributes "label", attributes := attributes }
      some ({ p1 with nodes := [node] }, consumed)
    else some (p1, consumed))

/-- `DotParser._parse_edge_definition`: `^edge\s*[{\[] attrs [}\]]\s*;?`. -/
def parseEdgeDefinition (p : DotParser) (cs : List Char) : Option (DotParser × Nat) := do
  let rest0 ← matchLit "edge".toList cs
  let (w1, rest1) := spanWs rest0
  let rest2 ← pOpen rest1
  let (attrsStr, alen, rest3) ← pAttrsBody rest2
  let (slen, _) := pSemiOpt rest3
  let consumed := 4 + w1 + 1 + alen + slen
  some ({ p with default_edge_attributes := parseAttributes attrsStr }, consumed)

/-- `default.copy()` then `.update(attrs)`. -/
def mergeAttrs (base add : List (String × AttrVal)) : List (String × AttrVal) :=
  add.foldl (fun acc kv => upsert acc kv.1 kv.2) base

/-- `DotParser._parse_edge_connection` (both patterns). -/
def parseEdgeConnection (p : DotParser) (cs : List Char) : Option (DotParser × Nat) :=
  (do
    -- with inline attributes
    let (rawSrc, slen1, rest1) ← pName cs
    let (w1, rest2) := spanWs rest1
    let (conn, clen, rest3) ← pConnector rest2
    let (w2, rest4) := spanWs rest3
    let (rawDst, dlen, rest5) ← pName rest4
    let (w3, rest6) := spanWs rest5
    let rest7 ← pOpen rest6
    let (attrsStr, alen, rest8) ← pAttrsBody rest7
    let (slen2, _) := pSemiOpt rest8
    let consumed := slen1 + w1 + clen + w2 + dlen + w3 + 1 + alen + slen2
    let source := stripNameQuotes rawSrc
    let destination := stripNameQuotes rawDst
    if ¬ isValidIdentifier source || ¬ isValidIdentifier destination then
      some (p, consumed)
    else
      let attrs := parseAttributes attrsStr
      let edge_attrs := mergeAttrs p.default_edge_attributes attrs
      let p1 := ensureNodeExists p source true
      let p2 := ensureNodeExists p1 destination false
      let edge : DEdge :=
        { source := source, destination := destination, connector := conn,
          attributes := edge_attrs }
      some ({ p2 with edges := p2.edges ++ [edge] }, consumed)) <|>
  (do
    -- without inline attributes
    let (rawSrc, slen1, rest1) ← pName cs
    let (w1, rest2) := spanWs rest1
    let (conn, clen, rest3) ← pConnector rest2
    let (w2, rest4) := spanWs rest3
    let (rawDst, dlen, rest5) ← pName rest4
    let (slen2, _) := pSemiOpt rest5
    let consumed := slen1 + w1 + clen + w2 + dlen + slen2
    let source := stripNameQuotes rawSrc
    let destination := stripNameQuotes rawDst
    if ¬ isValidIdentifier source || ¬ isValidIdentifier destination then
      some (p, consumed)
    else
      let p1 := ensureNodeExists p source true
      let p2 := ensureNodeExists p1 destination false
      let edge : DEdge :=
        { source := source, destination := destination, connector := conn,
          attributes := p.default_edge_attributes }
      some ({ p2 with edges := p2.edges ++ [edge] }, consumed))

/-- `DotParser._parse_standalone_node` (both patterns). -/
def parseStandaloneNode (p : DotParser) (cs : List Char) : Option (DotParser × Nat) :=
  if (startsKeyword "node" cs).isSome || (startsKeyword "edge" cs).isSome then none
  else
    (do
      -- with attributes
      let (rawName, nlen, rest1) ← pName cs
      let (w1, rest2) := spanWs rest1
      let rest3 ← pOpen rest2
      let (attrsStr, alen, rest4) ← pAttrsBody rest3
      let (slen, _) := pSemiOpt rest4
      let consumed := nlen + w1 + 1 + alen + slen
      let nodeName := stripNameQuotes rawName
      if ¬ isValidIdentifier nodeName then some (p, consumed)
      else if p.default_node_attributes.isSome then some (p, consumed)
      else
        let attributes := parseAttributes attrsStr
        let node : DNode :=
          { name := some nodeName, label := some (labelOf attributes nodeName),
            attributes := attributes }
        if nodeExists p nodeName then some (p, consumed)
        else some ({ p with nodes := p.nodes ++ [node] }, consumed)) <|>
    (do
      -- simple: ^name\s*;?
      let (rawName, nlen, rest1) ← pName cs
      let (slen, _) := pSemiOpt rest1
      let consumed := nlen + slen
      let nodeName := stripNameQuotes rawName
      if ¬ isValidIdentifier nodeName then some (p, consumed)
      else if p.default_node_attributes.isSome then some (p, consumed)
      else
        let node : DNode := { name := some nodeName, label := some (.s nodeName) }
        if nodeExists p nodeName then some (p, consumed)
        else some ({ p with nodes := p.nodes ++ [node] }, consumed))

/-- Try the four parse functions in the order `parse` does. -/
def tryStatementFuncs (p : DotParser) (cs : List Char) : Option (DotParser × Nat) :=
  parseNodeDefinition p cs <|> parseEdgeDefinition p cs <|>
  parseEdgeConnection p cs <|> parseStandaloneNode p cs

/-- `^(node\b|edge\b|")`: the statements the main loop admits. -/
def allowedStart (cs : List Char) : Bool :=
  (startsKeyword "node" cs).isSome || (startsKeyword "edge" cs).isSome ||
  (match cs with | '"' :: _ => true | _ => false)

/-- The main statement loop of `DotParser.parse` (lines 25–46), fuelled
by the input length (every continuing pass strictly shortens the
text). -/
def parseLoop : Nat → DotParser → List Char → DotParser
  | 0, p, _ => p
  | fuel + 1, p, cs =>
    if cs.isEmpty then p
    else if ¬ allowedStart cs then p
    else
      match tryStatementFuncs p cs with
      | none => p
      | some (p', consumed) =>
          let stmtText := String.mk (cs.take consumed)
          let csNext := (cs.drop consumed).dropWhile (fun c => c.isWhitespace)
          let csNext2 := if ¬ stmtText.trimRight.endsWith ";" then [] else csNext
          if csNext2.length = cs.length then p'
          else parseLoop fuel p' csNext2

/-- `DotParser.parse`: strip comments, trim, reject silently on an odd
number of double quotes, otherwise run the statement loop. -/
def DotParser.parse (p : DotParser) (dot_string : String) : DotParser :=
  let cleaned := cleanedDot dot_string
  if cleaned.toList.count '"' % 2 ≠ 0 then p
  else parseLoop (cleaned.length + 1) p cleaned.toList

end WorkflowAutomator

namespace WorkflowAutomator

/-! ## Helper lemmas about `run` and `stepN` -/

/-- With an empty stack the engine yields the terminal notify and
returns, whatever the fuel. -/
theorem run_nil (fuel : Nat) (iv : Option InputD) (rs : List (Option String)) :
    run fuel ⟨[], iv⟩ rs = ⟨[some endNotify], [], .terminated⟩ := by
  cases fuel <;> rfl

/-- Unfolding `run` across one successful loop pass. -/
theorem run_succ_ok {s : EState} {rs : List (Option String)}
    {outs : List (Option InstrDict)} {raws : List YVal} {s' : EState}
    {rs' : List (Option String)} (n : Nat)
    (hne : s.stack ≠ []) (h : step s rs = .ok outs raws s' rs') :
    run (n + 1) s rs =
      ⟨outs ++ (run n s' rs').outs, raws ++ (run n s' rs').raws, (run n s' rs').fin⟩ := by
  conv_lhs => rw [run]
  rw [if_neg (by simpa [List.isEmpty_iff] using hne), h]

/-- Unfolding `stepN` across one successful loop pass. -/
theorem stepN_succ_ok {s : EState} {rs : List (Option String)}
    {outs : List (Option InstrDict)} {raws : List YVal} {s' : EState}
    {rs' : List (Option String)} (n : Nat)
    (hne : s.stack ≠ []) (h : step s rs = .ok outs raws s' rs') :
    stepN (n + 1) s rs = stepN n s' rs' := by
  conv_lhs => rw [stepN]
  rw [if_neg (by simpa [List.isEmpty_iff] using hne), h]

/-- Unfolding `run` when the pass ends suspended. -/
theorem run_succ_suspended {s : EState} {rs : List (Option String)}
    {outs : List (Option InstrDict)} {raws : List YVal} (n : Nat)
    (hne : s.stack ≠ []) (h : step s rs = .suspended outs raws) :
    run (n + 1) s rs = ⟨outs, raws, .suspended⟩ := by
  conv_lhs => rw [run]
  rw [if_neg (by simpa [List.isEmpty_iff] using hne), h]

/-- Unfolding `run` when the pass crashes. -/
theorem run_succ_crash {s : EState} {rs : List (Option String)} {m : String}
    (n : Nat) (hne : s.stack ≠ []) (h : step s rs = .crash m) :
    run (n + 1) s rs = ⟨[], [], .crashed m⟩ := by
  conv_lhs => rw [run]
  rw [if_neg (by simpa [List.isEmpty_iff] using hne), h]

/-- The per-pass observation invariant of claim C1: among the values a
pass emits to the host, the six-host-tag subsequence is exactly the
six-host-tag subsequence of the routine yields the pass consumed, and
nothing emitted is tagged `transition` or `parent_transition`. -/
def obsOK : StepRes → Prop
  | .ok outs raws _ _ =>
      outs.filterMap obsOut = raws.filterMap obsRaw ∧
      outs.filter isEngineInternalTag = []
  | .suspended outs raws =>
      outs.filterMap obsOut = raws.filterMap obsRaw ∧
      outs.filter isEngineInternalTag = []
  | .crash _ => True

theorem advance_obs (iv : Option InputD) (ctx : Frame) (rest : List Frame)
    (g : Option String → RProc) (rs : List (Option String)) :
    obsOK (advance iv ctx rest g rs) := by
  unfold advance
  split
  · simp [obsOK]
  · split <;>
      simp [obsOK, obsOut, isEngineInternalTag, isHostTag, runnerErrorDict]
  · rename_i v k hv
    cases v with
    | instr i =>
      by_cases h1 : i.instruction = "transition"
      · simp [obsOK, h1, obsRaw, isHostTag]
      · by_cases h2 : i.instruction = "parent_transition"
        · cases rest <;> simp [obsOK, h1, h2, obsRaw, isHostTag]
        · by_cases h3 : i.instruction = "request_input"
          · match rs with
            | [] => simp [obsOK, h1, h2, h3, obsOut, obsRaw, isHostTag, isEngineInternalTag]
            | _ :: [] => simp [obsOK, h1, h2, h3, obsOut, obsRaw, isHostTag, isEngineInternalTag]
            | _ :: _ :: _ => simp [obsOK, h1, h2, h3, obsOut, obsRaw, isHostTag, isEngineInternalTag]
          · cases rs <;> by_cases hh : isHostTag i.instruction <;>
              simp [obsOK, h1, h2, h3, obsOut, obsRaw, isEngineInternalTag, hh]
    | other raw =>
      cases rs <;>
        simp [obsOK, obsOut, obsRaw, isEngineInternalTag, isHostTag, runnerWarningDict]

theorem step_obs (s : EState) (rs : List (Option String)) : obsOK (step s rs) := by
  unfold step
  split
  · simp [obsOK]
  · split
    · simp [obsOK]
    · split
      · simp [obsOK]
      · split
        · simp [obsOK]
        · split
          · split
            · simp [obsOK]
            · exact advance_obs ..
          · exact advance_obs ..

/-- The stack after one successful `advance`: the top frame is replaced
in place, or popped leaving the rest untouched, or popped into a parent
whose only change is its current state (`parent_transition`), or the
whole stack is gone (`parent_transition` at top level). -/
theorem advance_stack_shape (iv : Option InputD) (ctx : Frame) (rest : List Frame)
    (g : Option String → RProc) (rs : List (Option String))
    (outs : List (Option InstrDict)) (raws : List YVal) (s' : EState)
    (rs' : List (Option String))
    (h : advance iv ctx rest g rs = .ok outs raws s' rs') :
    (∃ ctx', s'.stack = ctx' :: rest) ∨ s'.stack = rest ∨
    (∃ p rest' cur', rest = p :: rest' ∧
        s'.stack = { p with current_state_name := cur' } :: rest') ∨
    s'.stack = [] := by
  unfold advance at h
  split at h
  · cases h; exact Or.inl ⟨_, rfl⟩
  · split at h
    · exact (StepRes.noConfusion h)
    · cases h; exact Or.inr (Or.inl rfl)
  · split at h
    · split at h
      · cases h; exact Or.inl ⟨_, rfl⟩
      · split at h
        · split at h
          · cases h; exact Or.inr (Or.inr (Or.inr rfl))
          · cases h; exact Or.inr (Or.inr (Or.inl ⟨_, _, _, rfl, rfl⟩))
        · split at h
          · split at h
            · exact (StepRes.noConfusion h)
            · exact (StepRes.noConfusion h)
            · cases h; exact Or.inl ⟨_, rfl⟩
          · split at h
            · exact (StepRes.noConfusion h)
            · cases h; exact Or.inl ⟨_, rfl⟩
    · split at h
      · exact (StepRes.noConfusion h)
      · cases h; exact Or.inl ⟨_, rfl⟩

/-- A strict suffix of a cons is a suffix of its tail. -/
theorem suffix_below_cons {tail : List Frame} {ctx : Frame} {rest : List Frame}
    (hsuf : tail <:+ ctx :: rest) (hlen : tail.length < (ctx :: rest).length) :
    tail <:+ rest := by
  rcases List.suffix_cons_iff.mp hsuf with h | h
  · subst h; simp at hlen
  · exact h

end WorkflowAutomator

namespace WorkflowAutomator

/-! ## The claims -/

/-- **C2** (code_bug evidence). The host supplies the reply `"Ada"` for
the delivered `request_input`, yet the requesting routine's next resume
returns `None` (the engine advances it with `next(state_generator)`,
i.e. resume value `none`); the reply is only wrapped into `input_value`
for the *next* routine instantiation.  The run on `c2Defs` delivers the
`request_input`, the bare-yield `None`, a notify showing the routine
received `None` — never `"Ada"` — and the terminal notify. -/
theorem c2_reply_not_delivered_to_requesting_routine :
    (run 10 (initState c2Defs) [some "Ada", some "Ada", some "Ada", some "Ada"]).outs =
      [some askNameInstr, none, some (gotNotify none), some endNotify]
    ∧ some (gotNotify (some "Ada")) ∉
        (run 10 (initState c2Defs) [some "Ada", some "Ada", some "Ada", some "Ada"]).outs := by
  constructor
  · rfl
  · decide

/-- **C3** (code_bug evidence). `__start__` yields a `transition` to
`"a"` with payload `"P"` and returns.  The engine never sets the
frame's current state to `"a"` (the per-pass trackers of
`composable_engine` lines 48–51 are reset before the `StopIteration`
arrives), so the machine halts: after two passes the frame's current
state is `None`, and the host stream contains only the terminal notify
— state `"a"`'s notify is never delivered and the payload is
dropped. -/
theorem c3_transition_yield_has_no_effect :
    (run 10 (initState c3Defs) [none, none, none, none]).outs = [some endNotify]
    ∧ stepN 2 (initState c3Defs) [none, none, none, none] =
        some (⟨[⟨c3Defs, none, none⟩], none⟩, [none, none, none, none]) := by
  constructor
  · rfl
  · rfl

/-- **C5** (counterexample). `__start__` raises `"boom"` at depth 0:
the engine yields the `runner_error`, pops the only frame — and then
still yields the terminal success notify, contradicting the claim that
it terminates without delivering it. -/
theorem c5_counterexample_success_notify_after_error :
    (run 10 (initState c5Defs) [none, none]).outs =
      [some (runnerErrorDict "__start__" "boom"), some endNotify]
    ∧ some endNotify ∈ (run 10 (initState c5Defs) [none, none]).outs := by
  constructor
  · rfl
  · decide

/-- **C1.** In every run of `composable_engine`, the subsequence of the
host-delivered stream tagged
`notify|warning|error|debug|custom|request_input` equals, in order, the
subsequence of the routine-yield trace with those tags (the
engine-generated records are tagged `runner_notify` / `runner_warning`
/ `runner_error` and the bare reply yield is `None`, so none of them
fall under the six tags); and no delivered value is tagged `transition`
or `parent_transition`. -/
theorem c1_host_stream_is_the_hosttag_yield_subsequence (fuel : Nat)
    (s : EState) (rs : List (Option String)) :
    (run fuel s rs).outs.filterMap obsOut = (run fuel s rs).raws.filterMap obsRaw
    ∧ (run fuel s rs).outs.filter isEngineInternalTag = [] := by
  induction fuel generalizing s rs with
  | zero =>
    by_cases h : s.stack.isEmpty <;>
      simp [run, h, obsOut, isEngineInternalTag, isHostTag, endNotify]
  | succ n ih =>
    by_cases h : s.stack.isEmpty
    · simp [run, h, obsOut, isEngineInternalTag, isHostTag, endNotify]
    · have hne : s.stack ≠ [] := by simpa [List.isEmpty_iff] using h
      have hobs := step_obs s rs
      cases hst : step s rs with
      | ok outs raws s' rs' =>
        rw [hst] at hobs
        have hobs' : outs.filterMap obsOut = raws.filterMap obsRaw ∧
            outs.filter isEngineInternalTag = [] := hobs
        rw [run_succ_ok n hne hst]
        have h2 := ih s' rs'
        constructor
        · simp only [List.filterMap_append, hobs'.1, h2.1]
        · simp only [List.filter_append, hobs'.2, h2.2, List.nil_append]
      | suspended outs raws =>
        rw [hst] at hobs
        rw [run_succ_suspended n hne hst]
        simpa [obsOK] using hobs
      | crash m =>
        rw [run_succ_crash n hne hst]
        simp

/-- **C4.** (i) When the top frame's current state is `__end__`, the
pass pops exactly that frame: no output, every other frame — the
parent in particular — byte-for-byte unchanged.  (ii) Any frame suffix
strictly below the top survives a pass verbatim unless the pass pops
down into it (which only `parent_transition` does, and then it changes
nothing but the new top's current state): so between a child's push and
its `__end__` pop, the parent is exactly as it was at the push.
(iii) A machine reaching `__end__` at stack depth 0 delivers exactly
one terminal notify and the engine terminates. -/
theorem c4_end_pop_parent_unchanged_single_terminal_notify :
    (∀ (sd : List (String × StateDef)) (g : Option (Option String → RProc))
        (rest : List Frame) (iv : Option InputD) (rs : List (Option String)),
        step ⟨⟨sd, some "__end__", g⟩ :: rest, iv⟩ rs = .ok [] [] ⟨rest, iv⟩ rs)
    ∧ (∀ (s : EState) (rs : List (Option String)) (outs : List (Option InstrDict))
        (raws : List YVal) (s' : EState) (rs' : List (Option String))
        (tail : List Frame),
        step s rs = .ok outs raws s' rs' →
        tail <:+ s.stack → tail.length < s.stack.length →
        tail <:+ s'.stack ∨ s'.stack.length ≤ tail.length)
    ∧ (∀ (sd : List (String × StateDef)) (g : Option (Option String → RProc))
        (iv : Option InputD) (rs : List (Option String)) (fuel : Nat),
        run (fuel + 1) ⟨[⟨sd, some "__end__", g⟩], iv⟩ rs =
          ⟨[some endNotify], [], .terminated⟩) := by
  have hpop : ∀ (sd : List (String × StateDef)) (g : Option (Option String → RProc))
      (rest : List Frame) (iv : Option InputD) (rs : List (Option String)),
      step ⟨⟨sd, some "__end__", g⟩ :: rest, iv⟩ rs = .ok [] [] ⟨rest, iv⟩ rs := by
    intro sd g rest iv rs
    simp [step]
  refine ⟨hpop, ?_, ?_⟩
  · intro s rs outs raws s' rs' tail hstep hsuf hlen
    obtain ⟨stack, iv⟩ := s
    cases stack with
    | nil => simp at hlen
    | cons ctx rest =>
      have htail : tail <:+ rest := suffix_below_cons hsuf hlen
      obtain ⟨csd, ccur, cgen⟩ := ctx
      cases ccur with
      | none =>
        simp [step] at hstep
        obtain ⟨-, -, h', -⟩ := hstep
        exact Or.inl (h' ▸ htail)
      | some cur =>
        by_cases hend : cur = "__end__"
        · subst hend
          rw [hpop] at hstep
          cases hstep
          exact Or.inl htail
        · cases hlook : alookup csd cur with
          | none =>
            simp [step, hend, hlook] at hstep
          | some sdef =>
            have hshape :
                ∀ g', advance iv ⟨csd, some cur, cgen⟩ rest g' rs = .ok outs raws s' rs' →
                tail <:+ s'.stack ∨ s'.stack.length ≤ tail.length := by
              intro g' hadv
              rcases advance_stack_shape _ _ _ _ _ _ _ _ _ hadv with
                ⟨ctx', hS⟩ | hS | ⟨p, rest', cur', hrest, hS⟩ | hS
              · exact Or.inl (hS ▸ htail.trans (List.suffix_cons ctx' rest))
              · exact Or.inl (hS ▸ htail)
              · subst hrest
                rcases List.suffix_cons_iff.mp htail with h' | h'
                · subst h'
                  rw [hS]
                  exact Or.inr (by simp)
                · exact Or.inl (hS ▸ h'.trans (List.suffix_cons _ rest'))
              · exact Or.inr (hS ▸ Nat.zero_le _)
            cases cgen with
            | none =>
              cases sdef with
              | sub subdef =>
                simp [step, hend, hlook] at hstep
                obtain ⟨-, -, h', -⟩ := hstep
                exact Or.inl (h' ▸ (htail.trans (List.suffix_cons _ rest)).trans
                  (List.suffix_cons _ _))
              | func f =>
                simp [step, hend, hlook] at hstep
                exact hshape _ hstep
            | some g' =>
              simp [step, hend, hlook] at hstep
              exact hshape _ hstep
  · intro sd g iv rs fuel
    rw [run_succ_ok fuel (by simp) (hpop sd g [] iv rs), run_nil]
    rfl

/-- Closed instance of C4: an `__end__` child above a parent frame is
popped leaving the parent frame exactly as it was, the suffix below the
top survives the pass, and a depth-0 `__end__` run yields exactly the
terminal notify. -/
theorem c4_witness :
    (step ⟨[⟨[], some "__end__", none⟩, ⟨[], some "p", none⟩], none⟩ [] =
        .ok [] [] ⟨[⟨[], some "p", none⟩], none⟩ [])
    ∧ ([⟨[], some "p", none⟩] <:+
          (⟨[⟨[], some "p", none⟩], none⟩ : EState).stack
        ∨ (⟨[⟨[], some "p", none⟩], none⟩ : EState).stack.length ≤
            ([⟨[], some "p", none⟩] : List Frame).length)
    ∧ run 4 ⟨[⟨[], some "__end__", none⟩], none⟩ [] =
        ⟨[some endNotify], [], .terminated⟩ := by
  refine ⟨c4_end_pop_parent_unchanged_single_terminal_notify.1 [] none
      [⟨[], some "p", none⟩] none [], ?_, ?_⟩
  · exact c4_end_pop_parent_unchanged_single_terminal_notify.2.1
      ⟨[⟨[], some "__end__", none⟩, ⟨[], some "p", none⟩], none⟩ [] [] []
      ⟨[⟨[], some "p", none⟩], none⟩ [] [⟨[], some "p", none⟩]
      (c4_end_pop_parent_unchanged_single_terminal_notify.1 [] none
        [⟨[], some "p", none⟩] none [])
      (List.suffix_cons _ _) (by simp)
  · exact c4_end_pop_parent_unchanged_single_terminal_notify.2.2 [] none none [] 3

/-- **C5 amended.** A routine raising during advance yields exactly one
`runner_error` carrying the state name and the exception message, then
pops only the current machine's frame (parents are untouched and
continue); when no parent remains the engine exits its loop and — still
— yields the terminal notify before terminating. -/
theorem c5_amended_error_pops_machine_then_terminal_notify :
    ∀ (sd : List (String × StateDef)) (cur : String) (d : StateDef)
      (g : Option String → RProc) (rest : List Frame) (iv : Option InputD)
      (r : Option String) (rs : List (Option String)) (e : String),
      cur ≠ "__end__" →
      alookup sd cur = some d →
      g none = .fail e →
      step ⟨⟨sd, some cur, some g⟩ :: rest, iv⟩ (r :: rs) =
          .ok [some (runnerErrorDict cur e)] [] ⟨rest, iv⟩ rs
      ∧ ∀ fuel,
          run (fuel + 1) ⟨[⟨sd, some cur, some g⟩], iv⟩ (r :: rs) =
            ⟨[some (runnerErrorDict cur e), some endNotify], [], .terminated⟩ := by
  intro sd cur d g rest iv r rs e hcur hlook hg
  have hstep : ∀ (rest' : List Frame) (iv' : Option InputD),
      step ⟨⟨sd, some cur, some g⟩ :: rest', iv'⟩ (r :: rs) =
        .ok [some (runnerErrorDict cur e)] [] ⟨rest', iv'⟩ rs := by
    intro rest' iv'
    simp [step, hcur, hlook, advance, hg]
  refine ⟨hstep rest iv, fun fuel => ?_⟩
  rw [run_succ_ok fuel (by simp) (hstep [] iv), run_nil]
  rfl

/-- Closed instance of C5's amended statement at the `c5Defs` machine. -/
theorem c5_amended_witness :
    step ⟨⟨c5Defs, some "__start__", some (fun _ => .fail "boom")⟩ :: [], none⟩
        [none] = .ok [some (runnerErrorDict "__start__" "boom")] [] ⟨[], none⟩ []
    ∧ run 3 ⟨[⟨c5Defs, some "__start__", some (fun _ => .fail "boom")⟩], none⟩
        [none] = ⟨[some (runnerErrorDict "__start__" "boom"), some endNotify],
          [], .terminated⟩ := by
  have h := c5_amended_error_pops_machine_then_terminal_notify c5Defs "__start__"
    (.func raisesBoom) (fun _ => .fail "boom") [] none none [] "boom"
    (by decide) rfl rfl
  exact ⟨h.1, h.2 2⟩

/-- **C6.** A routine that returns without yielding and a routine that
yields one `transition` to `__end__` and returns are observably
equivalent under `composable_engine`: same host stream, same way of
finishing (the second run needs one more loop pass), and the same
engine state — frame stack and `input_value` — afterwards.  (In this
engine both halt the machine with `current_state_name := None`; the
recorded transition is consumed without effect, see C3.) -/
theorem c6_return_without_yield_equiv_end_transition :
    ∀ (sdA sdB : List (String × StateDef)) (S : String) (rest : List Frame)
      (iv : Option InputD) (rs : List (Option String)),
      S ≠ "__end__" →
      alookup sdA S = some (.func returnsImmediately) →
      alookup sdB S = some (.func yieldsEndTransition) →
      (∀ fuel,
        (run (fuel + 2) ⟨⟨sdA, some S, none⟩ :: rest, iv⟩ rs).outs =
          (run (fuel + 3) ⟨⟨sdB, some S, none⟩ :: rest, iv⟩ rs).outs
        ∧ (run (fuel + 2) ⟨⟨sdA, some S, none⟩ :: rest, iv⟩ rs).fin =
          (run (fuel + 3) ⟨⟨sdB, some S, none⟩ :: rest, iv⟩ rs).fin)
      ∧ stepN 2 ⟨⟨sdA, some S, none⟩ :: rest, iv⟩ rs = some (⟨rest, none⟩, rs)
      ∧ stepN 3 ⟨⟨sdB, some S, none⟩ :: rest, iv⟩ rs = some (⟨rest, none⟩, rs) := by
  intro sdA sdB S rest iv rs hS hA hB
  have e1 : step ⟨⟨sdA, some S, none⟩ :: rest, iv⟩ rs =
      .ok [] [] ⟨⟨sdA, none, none⟩ :: rest, none⟩ rs := by
    simp [step, hS, hA, advance, returnsImmediately]
  have e2 : ∀ (sd : List (String × StateDef)) (rs' : List (Option String)),
      step ⟨⟨sd, none, none⟩ :: rest, none⟩ rs' = .ok [] [] ⟨rest, none⟩ rs' := by
    intro sd rs'
    simp [step]
  have f1 : step ⟨⟨sdB, some S, none⟩ :: rest, iv⟩ rs =
      .ok [] [.instr endTransitionInstr]
        ⟨⟨sdB, some S, some (fun _ => .done)⟩ :: rest, iv⟩ rs := by
    simp [step, hS, hB, advance, yieldsEndTransition, endTransitionInstr]
  have f2 : step ⟨⟨sdB, some S, some (fun _ => .done)⟩ :: rest, iv⟩ rs =
      .ok [] [] ⟨⟨sdB, none, none⟩ :: rest, none⟩ rs := by
    simp [step, hS, hB, advance]
  refine ⟨fun fuel => ?_, ?_, ?_⟩
  · rw [run_succ_ok (fuel + 1) (by simp) e1, run_succ_ok fuel (by simp) (e2 sdA rs),
      run_succ_ok (fuel + 2) (by simp) f1, run_succ_ok (fuel + 1) (by simp) f2,
      run_succ_ok fuel (by simp) (e2 sdB rs)]
    simp
  · rw [stepN_succ_ok 1 (by simp) e1, stepN_succ_ok 0 (by simp) (e2 sdA rs)]
    rfl
  · rw [stepN_succ_ok 2 (by simp) f1, stepN_succ_ok 1 (by simp) f2,
      stepN_succ_ok 0 (by simp) (e2 sdB rs)]
    rfl

/-- Machine whose `__start__` returns without yielding. -/
def c6DefsA : List (String × StateDef) :=
  [("__start__", .func returnsImmediately), ("__end__", .func endRoutine)]

/-- Machine whose `__start__` yields one transition to `__end__`. -/
def c6DefsB : List (String × StateDef) :=
  [("__start__", .func yieldsEndTransition), ("__end__", .func endRoutine)]

/-- Closed instance of C6 on one-state machines: identical host streams
and final states. -/
theorem c6_witness :
    ((run 7 (initState c6DefsA) []).outs = (run 8 (initState c6DefsB) []).outs
      ∧ (run 7 (initState c6DefsA) []).fin = (run 8 (initState c6DefsB) []).fin)
    ∧ stepN 2 (initState c6DefsA) [] = some (⟨[], none⟩, [])
    ∧ stepN 3 (initState c6DefsB) [] = some (⟨[], none⟩, []) := by
  have h := c6_return_without_yield_equiv_end_transition c6DefsA c6DefsB
    "__start__" [] none [] (by decide) rfl rfl
  exact ⟨h.1 5, h.2.1, h.2.2⟩

/-- **C7.** A state-definition mapping missing `"__start__"` or
`"__end__"` makes `composable_engine` raise its `ValueError` before any
instruction is produced: the result is the construction error, no run
output exists. -/
theorem c7_missing_start_or_end_is_construction_error :
    ∀ (defs : List (String × StateDef)) (init : String) (fuel : Nat)
      (rs : List (Option String)),
      ((alookup defs "__start__").isNone = true ∨
        (alookup defs "__end__").isNone = true) →
      composable_engine defs init fuel rs =
        .error (if (alookup defs "__start__").isNone
                then "State machine must have a " ++ sq ++ "__start__" ++ sq ++ " state."
                else "State machine must have an " ++ sq ++ "__end__" ++ sq ++ " state.") := by
  intro defs init fuel rs h
  unfold composable_engine
  rcases h with h | h
  · simp [h]
  · by_cases h2 : (alookup defs "__start__").isNone <;> simp [h, h2]

/-- Closed instance of C7 at the empty mapping. -/
theorem c7_witness :
    ((alookup ([] : List (String × StateDef)) "__start__").isNone = true ∨
      (alookup ([] : List (String × StateDef)) "__end__").isNone = true)
    ∧ composable_engine [] "__start__" 5 [] =
        .error (if (alookup ([] : List (String × StateDef)) "__start__").isNone
                then "State machine must have a " ++ sq ++ "__start__" ++ sq ++ " state."
                else "State machine must have an " ++ sq ++ "__end__" ++ sq ++ " state.") :=
  ⟨Or.inl rfl,
   c7_missing_start_or_end_is_construction_error [] "__start__" 5 [] (Or.inl rfl)⟩

/-- **C8.** On `StopIteration` of a state routine, when the current
state has exactly one outgoing transition and its condition is empty,
`_process_instruction` auto-transitions to its target (and reports the
state change); when the single transition carries a non-empty
condition, no transition is taken — the current state is unchanged and
`state_complete` is reported. -/
theorem c8_auto_transition_single_unguarded_only :
    (∀ (e : Eng) (t : String),
      alookup e.transitions e.current_state = some [(t, "")] →
      processInstruction e .stops =
        (.pair "state_change" t,
         { e with current_state := t, state_gen_present := false }))
    ∧ (∀ (e : Eng) (t c : String),
      alookup e.transitions e.current_state = some [(t, c)] → c ≠ "" →
      processInstruction e .stops =
        (.pair "state_complete" e.current_state,
         { e with state_gen_present := false })) := by
  constructor
  · intro e t h
    simp [processInstruction, h]
  · intro e t c h hc
    simp [processInstruction, h, hc]

/-- A concrete graph-driven engine configuration. -/
def c8Eng (cond : String) : Eng :=
  { states := ["q", "a"], transitions := [("q", [("a", cond)])],
    current_state := "q", state_gen_present := true,
    instruction_queue := [], max_queue_size := 100 }

/-- Closed instance of C8: with one unguarded edge `q -> a` the engine
auto-transitions to `a`; with the guard `"Y"` it stays at `q`. -/
theorem c8_witness :
    processInstruction (c8Eng "") .stops =
      (.pair "state_change" "a",
       { c8Eng "" with current_state := "a", state_gen_present := false })
    ∧ processInstruction (c8Eng "Y") .stops =
      (.pair "state_complete" "q", { c8Eng "Y" with state_gen_present := false }) :=
  ⟨c8_auto_transition_single_unguarded_only.1 (c8Eng "") "a" rfl,
   c8_auto_transition_single_unguarded_only.2 (c8Eng "Y") "a" "Y" rfl (by decide)⟩

/-- **C9.** When the comment-stripped input contains an odd number of
double-quote characters, `DotParser.parse` returns at once (the Lean
model is total, mirroring that no exception is raised) leaving the
parser untouched; a fresh parser's `nodes` and `edges` stay empty — the
malformed input is rejected silently. -/
theorem c9_odd_quotes_rejected_silently :
    ∀ (p : DotParser) (s : String),
      (cleanedDot s).toList.count '"' % 2 = 1 →
      DotParser.parse p s = p
      ∧ (DotParser.parse freshDotParser s).nodes = []
      ∧ (DotParser.parse freshDotParser s).edges = [] := by
  intro p s h
  have hp : ∀ q : DotParser, DotParser.parse q s = q := by
    intro q
    unfold DotParser.parse
    rw [if_pos (by omega)]
  refine ⟨hp p, ?_, ?_⟩ <;> rw [hp freshDotParser] <;> rfl

/-- Closed instance of C9 on an input with a single (unterminated)
quote. -/
theorem c9_witness :
    (cleanedDot "node \"broken ;").toList.count '"' % 2 = 1
    ∧ DotParser.parse freshDotParser "node \"broken ;" = freshDotParser
    ∧ (DotParser.parse freshDotParser "node \"broken ;").nodes = [] :=
  ⟨by decide,
   (c9_odd_quotes_rejected_silently freshDotParser "node \"broken ;"
     (by decide)).1,
   (c9_odd_quotes_rejected_silently freshDotParser "node \"broken ;"
     (by decide)).2.1⟩

/-- **C10.** `send_instruction` appends `(instruction, context)` and
returns `True` exactly when the queue holds fewer than `max_queue_size`
entries; otherwise it returns `False` and leaves the queue unchanged —
so a queue within its bound stays within its bound. -/
theorem c10_send_instruction_bounded_queue :
    ∀ (e : Eng) (ins : String) (ctx : Option String),
      (e.instruction_queue.length < e.max_queue_size →
        sendInstruction e ins ctx =
          ({ e with instruction_queue := e.instruction_queue ++ [(ins, ctx)] }, true))
      ∧ (e.max_queue_size ≤ e.instruction_queue.length →
        sendInstruction e ins ctx = (e, false))
      ∧ (e.instruction_queue.length ≤ e.max_queue_size →
        (sendInstruction e ins ctx).1.instruction_queue.length ≤ e.max_queue_size) := by
  intro e ins ctx
  refine ⟨fun h => ?_, fun h => ?_, fun h => ?_⟩
  · unfold sendInstruction
    rw [if_neg (by omega)]
  · unfold sendInstruction
    rw [if_pos (by omega)]
  · unfold sendInstruction
    by_cases hfull : e.instruction_queue.length ≥ e.max_queue_size
    · rw [if_pos hfull]
      exact h
    · rw [if_neg hfull]
      simp only
      simp only [List.length_append, List.length_cons, List.length_nil]
      omega

/-- Closed instance of C10 with a bound of 2: an append below the
bound, a rejection at the bound, and the bound preserved. -/
theorem c10_witness :
    sendInstruction
        { states := [], transitions := [], current_state := "s",
          state_gen_present := false, instruction_queue := [("i1", none)],
          max_queue_size := 2 } "i2" none =
      ({ states := [], transitions := [], current_state := "s",
         state_gen_present := false,
         instruction_queue := [("i1", none), ("i2", none)],
         max_queue_size := 2 }, true)
    ∧ sendInstruction
        { states := [], transitions := [], current_state := "s",
          state_gen_present := false,
          instruction_queue := [("i1", none), ("i2", none)],
          max_queue_size := 2 } "i3" none =
      ({ states := [], transitions := [], current_state := "s",
         state_gen_present := false,
         instruction_queue := [("i1", none), ("i2", none)],
         max_queue_size := 2 }, false)
    ∧ (sendInstruction
        { states := [], transitions := [], current_state := "s",
          state_gen_present := false,
          instruction_queue := [("i1", none), ("i2", none)],
          max_queue_size := 2 } "i3" none).1.instruction_queue.length ≤ 2 := by
  refine ⟨?_, ?_, ?_⟩
  · have h := (c10_send_instruction_bounded_queue
      { states := [], transitions := [], current_state := "s",
        state_gen_present := false, instruction_queue := [("i1", none)],
        max_queue_size := 2 } "i2" none).1 (by decide)
    exact h
  · have h := (c10_send_instruction_bounded_queue
      { states := [], transitions := [], current_state := "s",
        state_gen_present := false,
        instruction_queue := [("i1", none), ("i2", none)],
        max_queue_size := 2 } "i3" none).2.1 (by decide)
    exact h
  · have h := (c10_send_instruction_bounded_queue
      { states := [], transitions := [], current_state := "s",
        state_gen_present := false,
        instruction_queue := [("i1", none), ("i2", none)],
        max_queue_size := 2 } "i3" none).2.2 (by decide)
    exact h

end WorkflowAutomator
